import Mathlib

/-!
Verification development for the client-side queue engine of
faaskeeper-python (`faaskeeper/queue.py`).

The Python source is shallowly embedded: the thread-safe queues become
lists threaded through explicit state, the watch-registry dict becomes a
total function from keys to watch buckets (every access in the source
goes through `dict.get` with a falsy test, so an absent key is
observationally identical to an empty bucket), futures and operations
become opaque numeric identifiers, and completing a future becomes an
emitted `FutureAction`.  `hashlib.md5(path).hexdigest()` is kept abstract
as a parameter `hash : String → String`; nothing in the verified code
depends on its internals.  Wall-clock and logical timestamps are
modelled as integers.
-/

namespace FaasKeeper

/-- Watch event types (`faaskeeper.watch.WatchEventType`). -/
inductive WatchEventType
  | nodeCreated
  | nodeDeleted
  | nodeDataChanged
  | nodeChildrenChanged
deriving DecidableEq

/-- Watch registration types (`faaskeeper.watch.WatchType`). -/
inductive WatchType
  | getData
  | existsNode
  | getChildren
deriving DecidableEq

/-- A registered watch: its type, the logical timestamp recorded at
registration, and an opaque identifier standing for the callback object. -/
structure Watch where
  watchType : WatchType
  timestamp : Int
  wid : Nat
deriving DecidableEq

/-- `faaskeeper.watch.WatchedEvent`: (event type, path, timestamp). -/
structure WatchedEvent where
  eventType : WatchEventType
  path : String
  timestamp : Int
deriving DecidableEq

/-- The `modified` descriptor of a `Node`: only the two fields the queue
engine reads, `system.sum` and `epoch.version`. -/
structure Modified where
  systemSum : Int
  epochVersion : List String
deriving DecidableEq

/-- `faaskeeper.node.Node`, restricted to the fields read by the sorter. -/
structure Node where
  path : String
  modified : Modified
deriving DecidableEq

/-- The duck-typed `result` of a direct request: a `Node`, an exception
(opaque id), or Python `None`. -/
inductive DirectResult
  | node (n : Node)
  | err (eid : Nat)
  | null
deriving DecidableEq

/-- An indirect reply dict; the queue engine only reads its `"event"`
field, formatted `"{session_id}-{local_idx}"`. -/
structure Reply where
  event : String
deriving DecidableEq

/-- The single completion of a future: `set_result` or `set_exception`. -/
inductive FutureAction
  | setResult (r : DirectResult)
  | setException (eid : Nat)
deriving DecidableEq

/-- Errors raised by queue methods (`SessionClosingException`). -/
inductive FKError
  | sessionClosing
deriving DecidableEq

/-- The watch registry `EventQueue._watches` (a Python dict from
`md5(path).hexdigest()` to a list of watches), modelled as a total
function with absent keys mapped to `[]`. -/
abbrev Registry := String → List Watch

/-- Dict write `reg[k] = v` (also models `dict.pop(k)` via `v = []`). -/
def Registry.set (reg : Registry) (k : String) (v : List Watch) : Registry :=
  fun q => if q = k then v else reg q

/-- Accumulator for splitting a character list at a separator character;
models Python `str.split(sep)` for a one-character separator. -/
def splitOnCharGo (c : Char) : List Char → List Char → List (List Char)
  | [], cur => [cur.reverse]
  | x :: xs, cur =>
    if x = c then cur.reverse :: splitOnCharGo c xs []
    else splitOnCharGo c xs (x :: cur)

/-- Python `s.split(c)` for a single-character separator `c`: always
returns a non-empty list; `"".split(c) = [""]`. -/
def splitOnChar (c : Char) (s : String) : List String :=
  (splitOnCharGo c s.data []).map String.mk

/-- `p.split("_")[0]` from `SorterThread.run` (queue.py line 447): the
leading component of an epoch version entry.  `splitOnChar` never
returns `[]`, so the default is never used. -/
def epochPath (p : String) : String :=
  (splitOnChar '_' p).headD p

/-- Decimal digit value of a character, `none` for non-digits. -/
def digitVal? (c : Char) : Option Nat :=
  if 48 ≤ c.toNat ∧ c.toNat ≤ 57 then some (c.toNat - 48) else none

/-- Python `int(s)` on the digit strings produced by the service protocol:
`none` (an exception) on the empty string or any non-digit character. -/
def digitsToNat? : List Char → Option Nat
  | [] => none
  | cs => cs.foldl (fun acc c => acc.bind (fun n => (digitVal? c).map (fun d => 10 * n + d))) (some 0)

/-- `int(result["event"].split("-")[1])` from `SorterThread.run`
(queue.py line 461): `none` models the exceptions raised by a missing
index or a failed `int()` conversion. -/
def parseLocalIdx (event : String) : Option Nat :=
  ((splitOnChar '-' event).get? 1).bind (fun s => digitsToNat? s.data)

/-- The body of the registration loop of `EventQueue.add_watch`
(queue.py lines 133-141): replace the first watch of the same
`watch_type` in place, otherwise append at the end. -/
def replaceOrAppend (w : Watch) : List Watch → List Watch
  | [] => [w]
  | x :: xs =>
    if x.watchType = w.watchType then w :: xs
    else x :: replaceOrAppend w xs

/-- `EventQueue.add_watch` (queue.py lines 124-143), registry part.  The
Python truthiness test `if existing_watches:` sends both a missing key
and an empty bucket to the fresh-bucket branch. -/
def add_watch_core (hash : String → String) (reg : Registry) (path : String) (w : Watch) : Registry :=
  let hashed := hash path
  let existing := reg hashed
  if existing = [] then Registry.set reg hashed [w]
  else Registry.set reg hashed (replaceOrAppend w existing)

/-- The path loop of `EventQueue.get_watches` (queue.py lines 153-164):
collect the watches with `timestamp < ts`, and drop a path's whole
bucket exactly when every watch in it matched (`watches_removed ==
len(existing_watches)`). -/
def get_watches_go (ts : Int) : Registry → List String → List Watch × Registry
  | reg, [] => ([], reg)
  | reg, p :: rest =>
    let existing := reg p
    let matched := existing.filter (fun w => w.timestamp < ts)
    let reg2 := if matched.length = existing.length then Registry.set reg p [] else reg
    let r := get_watches_go ts reg2 rest
    (matched ++ r.1, r.2)

/-- `EventQueue.get_watches` (queue.py lines 148-165), registry part. -/
def get_watches (reg : Registry) (paths : List String) (ts : Int) : List Watch × Registry :=
  get_watches_go ts reg paths

/-- Outcome of `EventQueue.add_watch_notification`: a watch-notification
tuple was enqueued, or the notification was silently dropped by the
early `return`, or it was logged (`self._log.warn`) and dropped. -/
inductive NotifOutcome
  | enqueued (w : Watch) (ev : WatchedEvent)
  | dropped
  | warned
deriving DecidableEq

/-- The watch loop of `EventQueue.add_watch_notification` (queue.py
lines 108-120).  Note the source places `return` directly under the
`watch_event == NODE_DATA_CHANGED` test, so for that event type only the
first element of the bucket is ever examined; for any other event type
the loop runs to completion and falls through to the warn. -/
def notif_loop (ev : WatchEventType) (path : String) (ts : Int) :
    List Watch → NotifOutcome × List Watch
  | [] => (.warned, [])
  | w :: rest =>
    if ev = WatchEventType.nodeDataChanged then
      if w.watchType = WatchType.getData then
        (.enqueued w ⟨ev, path, ts⟩, rest)
      else (.dropped, w :: rest)
    else
      let r := notif_loop ev path ts rest
      (r.1, w :: r.2)

/-- `EventQueue.add_watch_notification` (queue.py lines 94-122),
registry part: look up the bucket for the hashed path, run the loop,
write the (possibly shortened) bucket back. -/
def add_watch_notification_core (hash : String → String) (reg : Registry)
    (path : String) (ev : WatchEventType) (ts : Int) : NotifOutcome × Registry :=
  let hashed := hash path
  let existing := reg hashed
  if existing = [] then (.warned, reg)
  else
    let r := notif_loop ev path ts existing
    (r.1, Registry.set reg hashed r.2)

/-- A pending tuple of the sorter: `(request_id, request, future,
enqueue_timestamp)` with the request and future as opaque ids. -/
structure PendingEntry where
  requestId : Nat
  opId : Nat
  futId : Nat
  timestamp : Int
deriving DecidableEq

/-- Outcome of the `CLOUD_INDIRECT_RESULT` branch: the head entry was
popped and `request.process_result(result, future)` was invoked on it,
or the handler died (failed `assert`, `IndexError`, or `int()` error). -/
inductive IndirectOutcome
  | processed (e : PendingEntry)
  | fatal
deriving DecidableEq

/-- The `CLOUD_INDIRECT_RESULT` branch of `SorterThread.run` (queue.py
lines 457-466): parse the local index from the reply's `"event"` field,
assert it equals the request id at the head of `futures`, pop the head
and process it.  On a fatal error the pending list is left as it was. -/
def handleIndirectResult (pending : List PendingEntry) (event : String) :
    IndirectOutcome × List PendingEntry :=
  match parseLocalIdx event with
  | none => (.fatal, pending)
  | some idx =>
    match pending with
    | [] => (.fatal, [])
    | e :: rest =>
      if e.requestId = idx then (.processed e, rest)
      else (.fatal, e :: rest)

/-- The `CLOUD_DIRECT_RESULT` branch of `SorterThread.run` (queue.py
lines 432-455).  For a `Node` result it fetches the watches under
`md5(result.path)` and fires a `NODE_DATA_CHANGED` event for each; it
then calls `get_watches` a second time on the raw (unhashed) prefixes of
`result.modified.epoch.version`, but the source binds that second batch
to `watches` without iterating it, so those watches are never fired —
the embedding reproduces this by dropping `r2.1`.  Finally the future is
completed: `set_exception` for an exception, `set_result` otherwise. -/
def handleDirectResult (hash : String → String) (reg : Registry) (res : DirectResult) :
    List (Watch × WatchedEvent) × Registry × FutureAction :=
  match res with
  | .node n =>
    let ts := n.modified.systemSum
    let r1 := get_watches reg [hash n.path] ts
    let fired := r1.1.map (fun w => (w, (⟨WatchEventType.nodeDataChanged, n.path, ts⟩ : WatchedEvent)))
    let paths := n.modified.epochVersion.map epochPath
    let r2 := get_watches r1.2 paths ts
    (fired, r2.2, FutureAction.setResult res)
  | .err e => ([], reg, FutureAction.setException e)
  | .null => ([], reg, FutureAction.setResult res)

/-- The loop of `SorterThread._check_timeout` (queue.py lines 393-407),
with an explicit fuel argument standing for the structural measure
`len(futures) - i`, which strictly decreases because each expiring
iteration both pops the list and increments `i`.  The top-level wrapper
passes `futures.length` fuel, which the loop can never exhaust, so the
fuel-0 branch coincides with loop exit.  Note the source pops index `0`
but still increments `i`. -/
def check_timeout_go (now : Int) : Nat → List PendingEntry → Nat → List Nat → List Nat × List PendingEntry
  | 0, futures, _, failed => (failed, futures)
  | fuel + 1, futures, i, failed =>
    if h : i < futures.length then
      let fut := futures.get ⟨i, h⟩
      if 5 ≤ now - fut.timestamp then
        check_timeout_go now fuel futures.tail (i + 1) (failed ++ [fut.futId])
      else (failed, futures)
    else (failed, futures)

/-- `SorterThread._check_timeout` (queue.py lines 393-407): returns the
future ids failed with `TimeoutException(5.0)` in order, and the pending
list left behind. -/
def check_timeout (now : Int) (futures : List PendingEntry) : List Nat × List PendingEntry :=
  check_timeout_go now futures.length futures 0 []

/-- The receive-buffer ceiling of `ResponseListener.run` (queue.py line
256): `conn.recv(1024)`. -/
def recvBufferSize : Nat := 1024

/-- A multiplexed event of `EventQueue._queue`. -/
inductive QueueEvent
  | expectedResult (requestId opId futId : Nat)
  | directResult (requestId : Nat) (result : DirectResult) (futId : Nat)
  | indirectResult (reply : Reply)
  | watchNotification (w : Watch) (ev : WatchedEvent)
deriving DecidableEq

/-- State of an `EventQueue`: the FIFO queue, the watch registry, and
the `_closing` flag. -/
structure EventQueueState where
  queue : List QueueEvent
  watches : Registry
  closing : Bool

/-- `EventQueue.close` (queue.py lines 173-174): sets the flag only. -/
def EventQueueState.close (s : EventQueueState) : EventQueueState :=
  ⟨s.queue, s.watches, true⟩

/-- `EventQueue.add_expected_result` (queue.py lines 76-80). -/
def EventQueueState.add_expected_result (s : EventQueueState) (requestId opId futId : Nat) :
    Except FKError EventQueueState :=
  if s.closing then Except.error FKError.sessionClosing
  else Except.ok ⟨s.queue ++ [QueueEvent.expectedResult requestId opId futId], s.watches, s.closing⟩

/-- `EventQueue.add_direct_result` (queue.py lines 82-86). -/
def EventQueueState.add_direct_result (s : EventQueueState) (requestId : Nat)
    (result : DirectResult) (futId : Nat) : Except FKError EventQueueState :=
  if s.closing then Except.error FKError.sessionClosing
  else Except.ok ⟨s.queue ++ [QueueEvent.directResult requestId result futId], s.watches, s.closing⟩

/-- `EventQueue.add_indirect_result` (queue.py lines 88-92). -/
def EventQueueState.add_indirect_result (s : EventQueueState) (reply : Reply) :
    Except FKError EventQueueState :=
  if s.closing then Except.error FKError.sessionClosing
  else Except.ok ⟨s.queue ++ [QueueEvent.indirectResult reply], s.watches, s.closing⟩

/-- `EventQueue.add_watch_notification` (queue.py lines 94-122): the
closing check, the registry loop, and the conditional enqueue of a
`WATCH_NOTIFICATION` tuple. -/
def EventQueueState.add_watch_notification (hash : String → String) (s : EventQueueState)
    (path : String) (ev : WatchEventType) (ts : Int) : Except FKError EventQueueState :=
  if s.closing then Except.error FKError.sessionClosing
  else
    let r := add_watch_notification_core hash s.watches path ev ts
    let q := match r.1 with
      | NotifOutcome.enqueued w e => s.queue ++ [QueueEvent.watchNotification w e]
      | _ => s.queue
    Except.ok ⟨q, r.2, s.closing⟩

/-- `EventQueue.add_watch` (queue.py lines 124-143) with closing check. -/
def EventQueueState.add_watch (hash : String → String) (s : EventQueueState)
    (path : String) (w : Watch) : Except FKError EventQueueState :=
  if s.closing then Except.error FKError.sessionClosing
  else Except.ok ⟨s.queue, add_watch_core hash s.watches path w, s.closing⟩

/-- `EventQueue.get` (queue.py lines 167-171): a bounded blocking
dequeue that returns `None` on timeout and never inspects `_closing`. -/
def EventQueueState.get (s : EventQueueState) : Option (QueueEvent × EventQueueState) :=
  match s.queue with
  | [] => none
  | x :: xs => some (x, ⟨xs, s.watches, s.closing⟩)

/-- State of a `WorkQueue`: the FIFO queue of `(request_id, op, future)`
tuples, the `_closing` flag, and `_request_count`. -/
structure WorkQueueState where
  queue : List (Nat × Nat × Nat)
  closing : Bool
  requestCount : Nat
deriving DecidableEq

/-- A fresh `WorkQueue` (queue.py lines 178-181). -/
def WorkQueueState.initial : WorkQueueState := ⟨[], false, 0⟩

/-- `WorkQueue.add_request` (queue.py lines 183-188): enqueue the tuple
carrying the current `_request_count`, then increment it. -/
def WorkQueueState.add_request (s : WorkQueueState) (opId futId : Nat) :
    Except FKError WorkQueueState :=
  if s.closing then Except.error FKError.sessionClosing
  else Except.ok ⟨s.queue ++ [(s.requestCount, opId, futId)], s.closing, s.requestCount + 1⟩

/-- `WorkQueue.get` (queue.py lines 190-194): returns `None` on timeout
and never inspects `_closing`. -/
def WorkQueueState.get (s : WorkQueueState) : Option ((Nat × Nat × Nat) × WorkQueueState) :=
  match s.queue with
  | [] => none
  | x :: xs => some (x, ⟨xs, s.closing, s.requestCount⟩)

/-- `WorkQueue.close` (queue.py lines 196-197): sets the flag only. -/
def WorkQueueState.close (s : WorkQueueState) : WorkQueueState :=
  ⟨s.queue, true, s.requestCount⟩

/-- Run a batch of `add_request` calls in order. -/
def addAllRequests : WorkQueueState → List (Nat × Nat) → Except FKError WorkQueueState
  | s, [] => Except.ok s
  | s, (op, fut) :: rest => (s.add_request op fut).bind (fun s2 => addAllRequests s2 rest)

/-- The tuples `(n, op, fut), (n+1, op', fut'), …` that a batch of
enqueues starting at counter `n` deposits. -/
def indexFrom : Nat → List (Nat × Nat) → List (Nat × Nat × Nat)
  | _, [] => []
  | n, (op, fut) :: rest => (n, op, fut) :: indexFrom (n + 1) rest

/-- Repeatedly call `WorkQueue.get` until it returns `None`, collecting
the dequeued tuples (fuel bounds the iteration by the queue length). -/
def wqDrainGo : Nat → WorkQueueState → List (Nat × Nat × Nat)
  | 0, _ => []
  | fuel + 1, s =>
    match s.get with
    | none => []
    | some (x, s2) => x :: wqDrainGo fuel s2

/-- Everything `WorkQueue.get` hands out, in order. -/
def wqDrain (s : WorkQueueState) : List (Nat × Nat × Nat) :=
  wqDrainGo s.queue.length s

/-- Repeatedly call `EventQueue.get` until it returns `None`. -/
def eqDrainGo : Nat → EventQueueState → List QueueEvent
  | 0, _ => []
  | fuel + 1, s =>
    match s.get with
    | none => []
    | some (x, s2) => x :: eqDrainGo fuel s2

/-- Everything `EventQueue.get` hands out, in order. -/
def eqDrain (s : EventQueueState) : List QueueEvent :=
  eqDrainGo s.queue.length s

end FaasKeeper


namespace FaasKeeper

lemma regSet_self (reg : Registry) (k : String) (v : List Watch) :
    Registry.set reg k v k = v := by
  simp [Registry.set]

lemma regSet_ne (reg : Registry) (k : String) (v : List Watch) (q : String) (h : q ≠ k) :
    Registry.set reg k v q = reg q := by
  simp [Registry.set, h]

lemma wqDrainGo_eq (q : List (Nat × Nat × Nat)) :
    ∀ (b : Bool) (c : Nat) (fuel : Nat), q.length ≤ fuel →
      wqDrainGo fuel ⟨q, b, c⟩ = q := by
  induction q with
  | nil =>
    intro b c fuel _
    cases fuel <;> simp [wqDrainGo, WorkQueueState.get]
  | cons x xs ih =>
    intro b c fuel h
    cases fuel with
    | zero => simp at h
    | succ f =>
      simp only [wqDrainGo, WorkQueueState.get]
      rw [ih b c f (by simpa using h)]

lemma wqDrain_eq (s : WorkQueueState) : wqDrain s = s.queue := by
  obtain ⟨q, b, c⟩ := s
  exact wqDrainGo_eq q b c q.length (le_refl _)

lemma eqDrainGo_eq (q : List QueueEvent) :
    ∀ (w : Registry) (b : Bool) (fuel : Nat), q.length ≤ fuel →
      eqDrainGo fuel ⟨q, w, b⟩ = q := by
  induction q with
  | nil =>
    intro w b fuel _
    cases fuel <;> simp [eqDrainGo, EventQueueState.get]
  | cons x xs ih =>
    intro w b fuel h
    cases fuel with
    | zero => simp at h
    | succ f =>
      simp only [eqDrainGo, EventQueueState.get]
      rw [ih w b f (by simpa using h)]

lemma eqDrain_eq (s : EventQueueState) : eqDrain s = s.queue := by
  obtain ⟨q, w, b⟩ := s
  exact eqDrainGo_eq q w b q.length (le_refl _)

lemma addAllRequests_from (l : List (Nat × Nat)) :
    ∀ (q : List (Nat × Nat × Nat)) (c : Nat),
      addAllRequests ⟨q, false, c⟩ l = Except.ok ⟨q ++ indexFrom c l, false, c + l.length⟩ := by
  induction l with
  | nil => intro q c; simp [addAllRequests, indexFrom]
  | cons hd rest ih =>
    intro q c
    obtain ⟨op, fut⟩ := hd
    simp only [addAllRequests, WorkQueueState.add_request, Bool.false_eq_true, if_false,
      Except.bind, indexFrom]
    rw [ih (q ++ [(c, op, fut)]) (c + 1)]
    simp only [List.append_assoc, List.singleton_append, List.length_cons]
    congr 2
    omega

lemma indexFrom_fst (l : List (Nat × Nat)) :
    ∀ n : Nat, (indexFrom n l).map (fun t => t.1) = List.range' n l.length := by
  induction l with
  | nil => intro n; simp [indexFrom]
  | cons hd rest ih =>
    intro n
    obtain ⟨op, fut⟩ := hd
    simp [indexFrom, List.range'_succ, ih (n + 1)]

end FaasKeeper

namespace FaasKeeper

/-- C6: `WorkQueue` assigns request_ids strictly increasing by 1 from 0:
running any batch of `add_request` calls on a fresh queue enqueues the
i-th tuple with request_id i, the ids are exactly `0, 1, …` (hence
unique), and draining with `get` returns the tuples in enqueue order. -/
theorem workQueue_fifo_ids (l : List (Nat × Nat)) :
    addAllRequests WorkQueueState.initial l = Except.ok ⟨indexFrom 0 l, false, l.length⟩
    ∧ (indexFrom 0 l).map (fun t => t.1) = List.range l.length
    ∧ ((indexFrom 0 l).map (fun t => t.1)).Nodup
    ∧ wqDrain ⟨indexFrom 0 l, false, l.length⟩ = indexFrom 0 l := by
  refine ⟨?_, ?_, ?_, ?_⟩
  · simpa using addAllRequests_from l [] 0
  · rw [indexFrom_fst l 0]
    exact (List.range_eq_range' _).symm
  · rw [indexFrom_fst l 0, ← List.range_eq_range']
    exact List.nodup_range _
  · exact wqDrain_eq _

/-- C10: `close()` only blocks the enqueue side: on both queues `get`
returns an `Option` (it never inspects `_closing`, so it cannot raise
`SessionClosingException`), dequeues the same head after `close()` as
before it, and after `close()` draining still yields every queued item
in FIFO order; `close()` also leaves the watch registry untouched. -/
theorem close_blocks_only_enqueue (s : EventQueueState) (t : WorkQueueState) :
    eqDrain s.close = s.queue
    ∧ s.close.watches = s.watches
    ∧ Option.map Prod.fst s.close.get = Option.map Prod.fst s.get
    ∧ wqDrain t.close = t.queue
    ∧ Option.map Prod.fst t.close.get = Option.map Prod.fst t.get := by
  refine ⟨eqDrain_eq _, rfl, ?_, wqDrain_eq _, ?_⟩
  · obtain ⟨q, w, b⟩ := s
    cases q <;> simp [EventQueueState.get, EventQueueState.close]
  · obtain ⟨q, b, c⟩ := t
    cases q <;> simp [WorkQueueState.get, WorkQueueState.close]

/-- C7: once `close()` has run, every mutating enqueue operation —
`WorkQueue.add_request` and the `EventQueue` methods
`add_expected_result`, `add_direct_result`, `add_indirect_result`,
`add_watch_notification`, `add_watch` — raises
`SessionClosingException`; in the `Except` embedding the error result
carries no new state, so the queue and watch registry are unchanged. -/
theorem closed_queues_reject_enqueue (hash : String → String)
    (s : EventQueueState) (t : WorkQueueState)
    (requestId opId futId : Nat) (res : DirectResult) (reply : Reply)
    (path : String) (ev : WatchEventType) (ts : Int) (w : Watch)
    (hs : s.closing = true) (ht : t.closing = true) :
    s.add_expected_result requestId opId futId = Except.error FKError.sessionClosing
    ∧ s.add_direct_result requestId res futId = Except.error FKError.sessionClosing
    ∧ s.add_indirect_result reply = Except.error FKError.sessionClosing
    ∧ EventQueueState.add_watch_notification hash s path ev ts = Except.error FKError.sessionClosing
    ∧ EventQueueState.add_watch hash s path w = Except.error FKError.sessionClosing
    ∧ t.add_request opId futId = Except.error FKError.sessionClosing := by
  refine ⟨?_, ?_, ?_, ?_, ?_, ?_⟩ <;>
    simp [EventQueueState.add_expected_result, EventQueueState.add_direct_result,
      EventQueueState.add_indirect_result, EventQueueState.add_watch_notification,
      EventQueueState.add_watch, WorkQueueState.add_request, hs, ht]

/-- C7 witness: a closed `EventQueue` and a closed `WorkQueue` reject
each enqueue method with `SessionClosingException`. -/
theorem closed_queues_reject_enqueue_witness :
    (EventQueueState.mk [] (fun _ => []) true).closing = true
    ∧ (WorkQueueState.mk [] true 0).closing = true
    ∧ (EventQueueState.mk [] (fun _ => []) true).add_expected_result 0 1 2
        = Except.error FKError.sessionClosing
    ∧ (EventQueueState.mk [] (fun _ => []) true).add_direct_result 0 DirectResult.null 2
        = Except.error FKError.sessionClosing
    ∧ (EventQueueState.mk [] (fun _ => []) true).add_indirect_result ⟨"S-0"⟩
        = Except.error FKError.sessionClosing
    ∧ EventQueueState.add_watch_notification (fun s => s) (EventQueueState.mk [] (fun _ => []) true)
        "/a" WatchEventType.nodeDataChanged 0 = Except.error FKError.sessionClosing
    ∧ EventQueueState.add_watch (fun s => s) (EventQueueState.mk [] (fun _ => []) true)
        "/a" ⟨WatchType.getData, 0, 0⟩ = Except.error FKError.sessionClosing
    ∧ (WorkQueueState.mk [] true 0).add_request 1 2 = Except.error FKError.sessionClosing := by
  have h := closed_queues_reject_enqueue (fun s => s)
    (EventQueueState.mk [] (fun _ => []) true) (WorkQueueState.mk [] true 0)
    0 1 2 DirectResult.null ⟨"S-0"⟩ "/a" WatchEventType.nodeDataChanged 0
    ⟨WatchType.getData, 0, 0⟩ rfl rfl
  exact ⟨rfl, rfl, h.1, h.2.1, h.2.2.1, h.2.2.2.1, h.2.2.2.2.1, h.2.2.2.2.2⟩

/-- C9 counterexample: the receive-buffer ceiling the implementation
picks is `conn.recv(1024)`, which is not at least 64 KiB. -/
theorem recv_buffer_below_64KiB : ¬ (65536 ≤ recvBufferSize) := by decide

/-- C9 (amended): each inbound reply-socket message is read into a
receive buffer with a ceiling of 1024 bytes (1 KiB). -/
theorem recv_buffer_is_1024 : recvBufferSize = 1024 := rfl

/-- C1: in the `CLOUD_INDIRECT_RESULT` branch, when the local index
parsed from `reply["event"]` equals the request_id at the head of the
pending list, the head is popped and processed (futures complete in
FIFO submission order); when it differs, the `assert` fails fatally and
the pending list is not silently reordered. -/
theorem indirect_result_fifo (e : PendingEntry) (rest : List PendingEntry)
    (event : String) (idx : Nat) (hp : parseLocalIdx event = some idx) :
    (e.requestId = idx →
      handleIndirectResult (e :: rest) event = (IndirectOutcome.processed e, rest))
    ∧ (e.requestId ≠ idx →
      handleIndirectResult (e :: rest) event = (IndirectOutcome.fatal, e :: rest)) := by
  constructor <;> intro h <;> simp [handleIndirectResult, hp, h]

/-- C1 witness: with pending head `request_id = 1`, the reply `"S-1"`
is processed and popped, and a head mismatch would be fatal. -/
theorem indirect_result_fifo_witness :
    parseLocalIdx "S-1" = some 1
    ∧ (((⟨1, 5, 6, 0⟩ : PendingEntry).requestId = 1 →
        handleIndirectResult [⟨1, 5, 6, 0⟩] "S-1"
          = (IndirectOutcome.processed ⟨1, 5, 6, 0⟩, []))
      ∧ ((⟨1, 5, 6, 0⟩ : PendingEntry).requestId ≠ 1 →
        handleIndirectResult [⟨1, 5, 6, 0⟩] "S-1"
          = (IndirectOutcome.fatal, [⟨1, 5, 6, 0⟩]))) :=
  ⟨by decide, indirect_result_fifo ⟨1, 5, 6, 0⟩ [] "S-1" 1 (by decide)⟩

end FaasKeeper

namespace FaasKeeper

/-- Pending entry 0 of the C2 failing input: enqueued at time 0. -/
def timeoutEntry0 : PendingEntry := ⟨0, 100, 10, 0⟩

/-- Pending entry 1 of the C2 failing input: enqueued at time 1. -/
def timeoutEntry1 : PendingEntry := ⟨1, 101, 11, 1⟩

/-- C2 (code bug): at time 10 both pending entries are expired (ages 10
and 9 are ≥ 5), yet one scan fails only the first future and removes
only the first entry — the loop pops index 0 while also incrementing
`i`, so it skips the entry that slides into the inspected position.  The
claim (and the spec) say a single scan fails and removes both. -/
theorem timeout_scan_misses_second_expired :
    check_timeout 10 [timeoutEntry0, timeoutEntry1] = ([10], [timeoutEntry1])
    ∧ 5 ≤ (10 : Int) - timeoutEntry1.timestamp := by decide

/-- Path hash used by the C3 failing input (stands for MD5 hexdigest). -/
def epochHash : String → String := fun s => String.append "#" s

/-- The GET_DATA watch registered on `/x` in the C3 failing input. -/
def watchOnX : Watch := ⟨WatchType.getData, 10, 1⟩

/-- The GET_DATA watch registered on `/y` in the C3 failing input. -/
def watchOnY : Watch := ⟨WatchType.getData, 10, 2⟩

/-- Registry of the C3 failing input: watches on `/x` and `/y`, keyed by
their hashed paths as `add_watch` stores them. -/
def epochReg : Registry := fun k =>
  if k = epochHash "/x" then [watchOnX]
  else if k = epochHash "/y" then [watchOnY] else []

/-- The node returned by the direct read in the C3 failing input: path
`/x`, `modified.system.sum = 20`, `modified.epoch.version = ["/y_001"]`. -/
def epochNode : Node := ⟨"/x", ⟨20, ["/y_001"]⟩⟩

/-- C3 (code bug): on this direct result the sorter fires
`NODE_DATA_CHANGED` only for the watch under `md5("/x")`; the watch
registered on the epoch-derived path `/y` is never fired (the second
`get_watches` result is bound and dropped, and is looked up under the
raw path rather than its hash) and is still in the registry afterwards.
The future is then completed with `set_result`.  The claim says the
epoch-derived watches also fire and leave the registry. -/
theorem direct_result_drops_epoch_watches :
    (handleDirectResult epochHash epochReg (DirectResult.node epochNode)).1
      = [(watchOnX, ⟨WatchEventType.nodeDataChanged, "/x", 20⟩)]
    ∧ (handleDirectResult epochHash epochReg (DirectResult.node epochNode)).2.1 (epochHash "/y")
      = [watchOnY]
    ∧ (handleDirectResult epochHash epochReg (DirectResult.node epochNode)).2.2
      = FutureAction.setResult (DirectResult.node epochNode) := by decide

/-- The non-GET_DATA watch sitting at the head of the C4 bucket. -/
def headExistsWatch : Watch := ⟨WatchType.existsNode, 3, 1⟩

/-- The registered GET_DATA watch behind it, which the claim says the
notification must find. -/
def behindGetDataWatch : Watch := ⟨WatchType.getData, 3, 2⟩

/-- Registry of the C4 failing input: the `/z` bucket holds an EXISTS
watch first and a GET_DATA watch second (identity hash for keys). -/
def notifReg : Registry := fun k =>
  if k = "/z" then [headExistsWatch, behindGetDataWatch] else []

/-- C4 (code bug): a `NODE_DATA_CHANGED` notification for `/z` returns
after examining only the first bucket entry — the `return` sits outside
the `GET_DATA` test — so nothing is enqueued, nothing is logged, and the
registry still holds both watches.  The claim says the registered
GET_DATA watch among them is found, enqueued and removed. -/
theorem notification_misses_nonhead_watch :
    (add_watch_notification_core (fun s => s) notifReg "/z" WatchEventType.nodeDataChanged 7).1
      = NotifOutcome.dropped
    ∧ (add_watch_notification_core (fun s => s) notifReg "/z" WatchEventType.nodeDataChanged 7).2 "/z"
      = [headExistsWatch, behindGetDataWatch] := by decide

end FaasKeeper

namespace FaasKeeper

lemma get_watches_go_spec (ts : Int) (paths : List String) :
    ∀ reg : Registry, paths.Nodup →
      (get_watches_go ts reg paths).1
        = paths.flatMap (fun p => (reg p).filter (fun w => w.timestamp < ts))
      ∧ ∀ q : String, (get_watches_go ts reg paths).2 q
          = if q ∈ paths then
              (if ((reg q).filter (fun w => w.timestamp < ts)).length = (reg q).length
               then [] else reg q)
            else reg q := by
  induction paths with
  | nil =>
    intro reg _
    refine ⟨by simp [get_watches_go], ?_⟩
    intro q
    simp [get_watches_go]
  | cons p rest ih =>
    intro reg hnd
    have hp : p ∉ rest := (List.nodup_cons.mp hnd).1
    have hrest : rest.Nodup := (List.nodup_cons.mp hnd).2
    simp only [get_watches_go]
    set matched := (reg p).filter (fun w => w.timestamp < ts) with hm
    set reg2 := if matched.length = (reg p).length then Registry.set reg p [] else reg with hr2
    have hagree : ∀ x : String, x ≠ p → reg2 x = reg x := by
      intro x hx
      rw [hr2]
      split
      · exact regSet_ne reg p [] x hx
      · rfl
    obtain ⟨ih1, ih2⟩ := ih reg2 hrest
    constructor
    · rw [ih1]
      have : rest.flatMap (fun x => (reg2 x).filter (fun w => w.timestamp < ts))
          = rest.flatMap (fun x => (reg x).filter (fun w => w.timestamp < ts)) := by
        apply List.flatMap_congr
        intro x hx
        rw [hagree x (fun hxp => hp (hxp ▸ hx))]
      rw [this]
      simp [hm]
    · intro q
      rw [ih2 q]
      by_cases hqr : q ∈ rest
      · have hqp : q ≠ p := fun hqp => hp (hqp ▸ hqr)
        rw [hagree q hqp]
        simp [hqr, hqp]
      · by_cases hqp : q = p
        · subst hqp
          rw [if_neg hqr, if_pos (List.mem_cons_self q rest), hr2]
          by_cases hall : matched.length = (reg q).length
          · rw [if_pos hall, regSet_self]
            rw [hm] at hall
            rw [if_pos hall]
          · rw [if_neg hall]
            rw [hm] at hall
            rw [if_neg hall]
        · rw [hagree q hqp]
          simp [hqr, hqp]

/-- C5: `get_watches(paths, ts)` returns exactly the registered watches
under the given path keys whose timestamp is strictly below `ts`; a
path's bucket is dropped from the registry exactly when every watch in
it matched, and is left entirely unchanged when only some matched (the
matched watches are returned but stay registered). -/
theorem get_watches_spec (reg : Registry) (paths : List String) (ts : Int) (q : String)
    (hnd : paths.Nodup) :
    (get_watches reg paths ts).1
      = paths.flatMap (fun p => (reg p).filter (fun w => w.timestamp < ts))
    ∧ (get_watches reg paths ts).2 q
      = if q ∈ paths then
          (if ((reg q).filter (fun w => w.timestamp < ts)).length = (reg q).length
           then [] else reg q)
        else reg q := by
  obtain ⟨h1, h2⟩ := get_watches_go_spec ts paths reg hnd
  exact ⟨h1, h2 q⟩

/-- Registry of the C5 witness: bucket `"a"` has one matching and one
non-matching watch, bucket `"b"` is entirely matching. -/
def partialReg : Registry := fun k =>
  if k = "a" then [⟨WatchType.getData, 1, 1⟩, ⟨WatchType.existsNode, 9, 2⟩]
  else if k = "b" then [⟨WatchType.getData, 2, 3⟩] else []

/-- C5 witness: at timestamp 5 the call returns the two old watches,
leaves the partially-matching bucket `"a"` untouched and removes the
fully-matching bucket `"b"`. -/
theorem get_watches_spec_witness :
    (["a", "b"] : List String).Nodup
    ∧ ((get_watches partialReg ["a", "b"] 5).1
        = ["a", "b"].flatMap (fun p => (partialReg p).filter (fun w => w.timestamp < 5))
      ∧ (get_watches partialReg ["a", "b"] 5).2 "a"
        = if "a" ∈ ["a", "b"] then
            (if ((partialReg "a").filter (fun w => w.timestamp < 5)).length
                = (partialReg "a").length then [] else partialReg "a")
          else partialReg "a")
    ∧ (get_watches partialReg ["a", "b"] 5).2 "b"
        = if "b" ∈ ["a", "b"] then
            (if ((partialReg "b").filter (fun w => w.timestamp < 5)).length
                = (partialReg "b").length then [] else partialReg "b")
          else partialReg "b" :=
  ⟨by decide, get_watches_spec partialReg ["a", "b"] 5 "a" (by decide),
    (get_watches_spec partialReg ["a", "b"] 5 "b" (by decide)).2⟩

end FaasKeeper

namespace FaasKeeper

lemma rOA_not_mem (w : Watch) : ∀ b : List Watch,
    (∀ x ∈ b, x.watchType ≠ w.watchType) → replaceOrAppend w b = b ++ [w] := by
  intro b
  induction b with
  | nil => intro _; rfl
  | cons x xs ih =>
    intro h
    have hx : x.watchType ≠ w.watchType := h x (List.mem_cons_self x xs)
    simp only [replaceOrAppend, if_neg hx]
    rw [ih (fun y hy => h y (List.mem_cons_of_mem x hy))]
    rfl

lemma rOA_types_mem (w : Watch) : ∀ (b : List Watch) (a : WatchType),
    a ∈ (replaceOrAppend w b).map Watch.watchType →
    a = w.watchType ∨ a ∈ b.map Watch.watchType := by
  intro b
  induction b with
  | nil =>
    intro a ha
    simp [replaceOrAppend] at ha
    exact Or.inl ha
  | cons x xs ih =>
    intro a ha
    by_cases hx : x.watchType = w.watchType
    · simp only [replaceOrAppend, if_pos hx, List.map_cons, List.mem_cons] at ha
      rcases ha with h | h
      · exact Or.inl h
      · exact Or.inr (by simp [h])
    · simp only [replaceOrAppend, if_neg hx, List.map_cons, List.mem_cons] at ha
      rcases ha with h | h
      · exact Or.inr (by simp [h])
      · rcases ih a h with h2 | h2
        · exact Or.inl h2
        · exact Or.inr (by simp [h2])

lemma rOA_nodup (w : Watch) : ∀ b : List Watch, (b.map Watch.watchType).Nodup →
    ((replaceOrAppend w b).map Watch.watchType).Nodup := by
  intro b
  induction b with
  | nil => intro _; simp [replaceOrAppend]
  | cons x xs ih =>
    intro h
    rw [List.map_cons, List.nodup_cons] at h
    obtain ⟨hx, hxs⟩ := h
    by_cases hxw : x.watchType = w.watchType
    · simp only [replaceOrAppend, if_pos hxw, List.map_cons, List.nodup_cons]
      exact ⟨hxw ▸ hx, hxs⟩
    · simp only [replaceOrAppend, if_neg hxw, List.map_cons, List.nodup_cons]
      refine ⟨?_, ih hxs⟩
      intro hmem
      rcases rOA_types_mem w xs x.watchType hmem with h2 | h2
      · exact hxw h2
      · exact hx h2

lemma filter_type_nil (t : WatchType) : ∀ xs : List Watch,
    t ∉ xs.map Watch.watchType → xs.filter (fun x => x.watchType = t) = [] := by
  intro xs
  induction xs with
  | nil => intro _; rfl
  | cons x l ih =>
    intro h
    rw [List.map_cons, List.mem_cons] at h
    push_neg at h
    obtain ⟨h1, h2⟩ := h
    have hxt : x.watchType ≠ t := fun hh => h1 hh.symm
    simp [List.filter_cons, hxt, ih h2]

lemma rOA_filter (w : Watch) : ∀ b : List Watch, (b.map Watch.watchType).Nodup →
    (replaceOrAppend w b).filter (fun x => x.watchType = w.watchType) = [w] := by
  intro b
  induction b with
  | nil => intro _; simp [replaceOrAppend]
  | cons x xs ih =>
    intro h
    rw [List.map_cons, List.nodup_cons] at h
    obtain ⟨hx, hxs⟩ := h
    by_cases hxw : x.watchType = w.watchType
    · simp only [replaceOrAppend, if_pos hxw]
      have hnil : xs.filter (fun x => x.watchType = w.watchType) = [] :=
        filter_type_nil w.watchType xs (hxw ▸ hx)
      simp [hnil]
    · simp only [replaceOrAppend, if_neg hxw]
      simp [hxw, ih hxs]

lemma rOA_mem_type (w : Watch) : ∀ b : List Watch,
    w.watchType ∈ (replaceOrAppend w b).map Watch.watchType := by
  intro b
  induction b with
  | nil => simp [replaceOrAppend]
  | cons x xs ih =>
    by_cases hxw : x.watchType = w.watchType
    · simp [replaceOrAppend, hxw]
    · simp only [replaceOrAppend, if_neg hxw, List.map_cons, List.mem_cons]
      exact Or.inr ih

lemma rOA_length_of_mem (w : Watch) : ∀ b : List Watch,
    w.watchType ∈ b.map Watch.watchType →
    (replaceOrAppend w b).length = b.length := by
  intro b
  induction b with
  | nil => intro h; simp at h
  | cons x xs ih =>
    intro h
    by_cases hxw : x.watchType = w.watchType
    · simp [replaceOrAppend, hxw]
    · rw [List.map_cons, List.mem_cons] at h
      rcases h with h | h
      · exact absurd h.symm hxw
      · simp [replaceOrAppend, hxw, ih h]

lemma add_watch_core_at_key (hash : String → String) (reg : Registry) (path : String) (w : Watch) :
    (add_watch_core hash reg path w) (hash path)
      = replaceOrAppend w (reg (hash path)) := by
  unfold add_watch_core
  by_cases h : reg (hash path) = []
  · rw [if_pos h, regSet_self, h]
    rfl
  · rw [if_neg h, regSet_self]

lemma add_watch_core_at_other (hash : String → String) (reg : Registry) (path : String)
    (w : Watch) (k : String) (hk : k ≠ hash path) :
    (add_watch_core hash reg path w) k = reg k := by
  unfold add_watch_core
  split <;> exact regSet_ne _ _ _ _ hk

/-- C8: `add_watch` keeps at most one watch of a given `watch_type` per
path: it preserves the no-duplicate-types invariant of every bucket;
registering the same `(path, watch_type)` twice leaves exactly one entry
of that type — the most recent, replaced in place (the bucket length
does not grow) — and registering a different `watch_type` for an
already-watched path appends it. -/
theorem add_watch_replaces_same_type (hash : String → String) (reg : Registry)
    (path : String) (w w' : Watch) (k : String)
    (h1 : ((reg (hash path)).map Watch.watchType).Nodup)
    (h2 : ((reg k).map Watch.watchType).Nodup) :
    (((add_watch_core hash reg path w) k).map Watch.watchType).Nodup
    ∧ (w'.watchType = w.watchType →
        ((add_watch_core hash (add_watch_core hash reg path w) path w') (hash path)).filter
          (fun x => x.watchType = w.watchType) = [w']
        ∧ ((add_watch_core hash (add_watch_core hash reg path w) path w') (hash path)).length
          = ((add_watch_core hash reg path w) (hash path)).length)
    ∧ ((∀ x ∈ reg (hash path), x.watchType ≠ w.watchType) →
        (add_watch_core hash reg path w) (hash path) = reg (hash path) ++ [w]) := by
  have hb1 := add_watch_core_at_key hash reg path w
  have hb1nodup : (((add_watch_core hash reg path w) (hash path)).map Watch.watchType).Nodup := by
    rw [hb1]
    exact rOA_nodup w _ h1
  refine ⟨?_, ?_, ?_⟩
  · by_cases hk : k = hash path
    · subst hk
      exact hb1nodup
    · rw [add_watch_core_at_other hash reg path w k hk]
      exact h2
  · intro ht
    have hb2 := add_watch_core_at_key hash (add_watch_core hash reg path w) path w'
    have hmem : w'.watchType ∈ ((add_watch_core hash reg path w) (hash path)).map Watch.watchType := by
      rw [ht, hb1]
      exact rOA_mem_type w _
    constructor
    · rw [hb2, ← ht]
      exact rOA_filter w' _ hb1nodup
    · rw [hb2]
      exact rOA_length_of_mem w' _ hmem
  · intro hno
    rw [hb1]
    exact rOA_not_mem w _ hno

/-- Empty registry for the C8 witness. -/
def freshReg : Registry := fun _ => []

/-- C8 witness: registering a GET_DATA watch on `/a` twice on a fresh
registry leaves exactly one GET_DATA entry, the second watch, without
growing the bucket; the empty bucket trivially appends. -/
theorem add_watch_replaces_same_type_witness :
    ((freshReg ((fun s => s) "/a")).map Watch.watchType).Nodup
    ∧ ((freshReg "/a").map Watch.watchType).Nodup
    ∧ ((((add_watch_core (fun s => s) freshReg "/a" ⟨WatchType.getData, 1, 1⟩) "/a").map
          Watch.watchType).Nodup
      ∧ ((⟨WatchType.getData, 2, 2⟩ : Watch).watchType = (⟨WatchType.getData, 1, 1⟩ : Watch).watchType →
          ((add_watch_core (fun s => s)
              (add_watch_core (fun s => s) freshReg "/a" ⟨WatchType.getData, 1, 1⟩)
              "/a" ⟨WatchType.getData, 2, 2⟩) ((fun s => s) "/a")).filter
            (fun x => x.watchType = (⟨WatchType.getData, 1, 1⟩ : Watch).watchType)
            = [⟨WatchType.getData, 2, 2⟩]
          ∧ ((add_watch_core (fun s => s)
              (add_watch_core (fun s => s) freshReg "/a" ⟨WatchType.getData, 1, 1⟩)
              "/a" ⟨WatchType.getData, 2, 2⟩) ((fun s => s) "/a")).length
            = ((add_watch_core (fun s => s) freshReg "/a" ⟨WatchType.getData, 1, 1⟩)
                ((fun s => s) "/a")).length)
      ∧ ((∀ x ∈ freshReg ((fun s => s) "/a"),
            x.watchType ≠ (⟨WatchType.getData, 1, 1⟩ : Watch).watchType) →
          (add_watch_core (fun s => s) freshReg "/a" ⟨WatchType.getData, 1, 1⟩) ((fun s => s) "/a")
            = freshReg ((fun s => s) "/a") ++ [⟨WatchType.getData, 1, 1⟩])) :=
  ⟨by decide, by decide,
    add_watch_replaces_same_type (fun s => s) freshReg "/a"
      ⟨WatchType.getData, 1, 1⟩ ⟨WatchType.getData, 2, 2⟩ "/a" (by decide) (by decide)⟩

end FaasKeeper
